import Mathlib

/-!
Verification of the ST7796 controller model of the mipidsi display driver.

The surrounding crate layers (the DCS command encoder, ModelOptions, the
Builder) are not part of the provided source; they are modelled from the
specification. The ST7796 model itself (init sequence, write_pixels,
default_options, the st7796 builder constructor) is translated line by
line from src/mipidsi/src/models/st7796.rs.

The bus is modelled as a trace of observable events (command writes, raw
register writes, data-phase transfers, delays, reset-pin edges), with an
optional fault-injection index: the bus rejects the n-th write attempt.
-/

set_option autoImplicit false

namespace Mipidsi

/-- Modelled from the spec: display orientation (row/column order, mirroring)
with an optional mirror flag per variant; the crate's Orientation enum is not
in the provided source. -/
inductive Orientation where
  | portrait (mirrored : Bool)
  | portraitInverted (mirrored : Bool)
  | landscape (mirrored : Bool)
  | landscapeInverted (mirrored : Bool)
  deriving DecidableEq

/-- Modelled from the spec: ModelOptions holds display size, framebuffer size,
orientation/address-mode flags and the color-inversion flag. Sizes are
(width, height) pairs. -/
structure ModelOptions where
  displaySize : Nat × Nat
  framebufferSize : Nat × Nat
  orientation : Orientation
  invertVerticalRefresh : Bool
  invertColors : Bool
  deriving DecidableEq

/-- Modelled from the spec: constructor taking display size and framebuffer
size, with neutral orientation and no color inversion. -/
def ModelOptions.with_sizes (display fb : Nat × Nat) : ModelOptions :=
  ⟨display, fb, Orientation.portrait false, false, false⟩

/-- Modelled from the spec: the address-mode (MADCTL) byte is derived
deterministically from the options' orientation and vertical-refresh
inversion flags; the crate's SetAddressMode From impl is not in the
provided source. -/
def SetAddressMode.fromOptions (options : ModelOptions) : Nat :=
  (match options.orientation with
    | Orientation.portrait false => 0x00
    | Orientation.portrait true => 0x40
    | Orientation.landscape false => 0x20
    | Orientation.landscape true => 0x60
    | Orientation.portraitInverted false => 0xC0
    | Orientation.portraitInverted true => 0x80
    | Orientation.landscapeInverted false => 0xE0
    | Orientation.landscapeInverted true => 0xA0)
  + (if options.invertVerticalRefresh then 0x10 else 0)

/-- Modelled from the spec: the hardware scroll offset programmed by the
scroll-area command is the framebuffer-minus-display size difference along
the vertical (scroll) axis; the crate's SetScrollArea From impl is not in
the provided source. Computed in Int so that non-negativity is a statement,
not a coercion artifact. -/
def SetScrollArea.fromOptions (options : ModelOptions) : Int :=
  (options.framebufferSize.2 : Int) - (options.displaySize.2 : Int)

/-- Modelled from the spec: bits per pixel derived from the model's fixed
color format; 16 for Rgb565. -/
def BitsPerPixel.fromRgb565 : Nat := 16

/-- DCS commands issued by the ST7796 init and pixel-write sequences, with
the option-derived parameters they carry. -/
inductive DcsCommand where
  | softReset
  | exitSleepMode
  | setScrollArea (offset : Int)
  | setAddressMode (value : Nat)
  | setInvertMode (invert : Bool)
  | setPixelFormat (bitsPerPixel : Nat)
  | enterNormalMode
  | setDisplayOn
  | writeMemoryStart
  deriving DecidableEq

/-- An observable action at the bus / pin / delay boundary. -/
inductive Event where
  | command (c : DcsCommand)
  | raw (opcode : Nat) (payload : List Nat)
  | data (bytes : List Nat)
  | delayUs (us : Nat)
  | resetAssert
  | resetDeassert
  deriving DecidableEq

/-- Bus state: number of write attempts made so far, and the trace of events
performed. -/
structure BusState where
  writes : Nat
  trace : List Event
  deriving DecidableEq

/-- A step of a straight-line driver routine: a fallible bus write, or an
infallible action (delay, reset-pin edge) that does not touch the bus. -/
inductive Step where
  | write (e : Event)
  | emit (e : Event)

/-- Modelled from the spec: the command encoder issues each write
synchronously and returns an error immediately on bus failure, with no
retry; a routine aborts at the first failed write. failAt injects a fault
at the given write attempt (the rejected write leaves no event). -/
def runSteps (failAt : Option Nat) : List Step → BusState → BusState × Bool
  | [], s => (s, true)
  | Step.write e :: rest, s =>
      if failAt = some s.writes then (s, false)
      else runSteps failAt rest ⟨s.writes + 1, s.trace ++ [e]⟩
  | Step.emit e :: rest, s => runSteps failAt rest ⟨s.writes, s.trace ++ [e]⟩

/-- Events of a step list in order, ignoring fallibility. -/
def eventsOf : List Step → List Event
  | [] => []
  | Step.write e :: rest => e :: eventsOf rest
  | Step.emit e :: rest => e :: eventsOf rest

/-- Number of bus-write steps in a step list. -/
def writeCount : List Step → Nat
  | [] => 0
  | Step.write _ :: rest => writeCount rest + 1
  | Step.emit _ :: rest => writeCount rest

/-- Bring-up error domain: a bus-write failure or a reset-pin failure. -/
inductive InitError where
  | displayError
  | pin
  deriving DecidableEq

/-- Steady-state error domain: a bus-write failure. -/
inductive Error where
  | displayError
  deriving DecidableEq

/-- The ST7796 controller model (a field-less marker, as in the source). -/
inductive ST7796 where
  | mk
  deriving DecidableEq

/-- Modelled from the spec: hard reset asserts and deasserts the reset pin
with a defined pulse width via the delay provider; the Model trait's
hard_reset default body is not in the provided source. Pin toggling is
modelled as infallible. -/
def ST7796.hard_reset_steps : List Step :=
  [Step.emit Event.resetAssert,
   Step.emit (Event.delayUs 10),
   Step.emit Event.resetDeassert]

/-- The step sequence of ST7796::init, translated line by line from the
source: reset choice, settle delay, sleep exit, vendor extension unlock,
scroll area, address mode, invert mode, pixel format, tuning registers,
gamma correction, normal mode, vendor extension lock, display on, final
settle delay. -/
def ST7796.initSteps (options : ModelOptions) (hasRst : Bool) : List Step :=
  (if hasRst then ST7796.hard_reset_steps
   else [Step.write (Event.command DcsCommand.softReset)]) ++
  [Step.emit (Event.delayUs 150000),
   Step.write (Event.command DcsCommand.exitSleepMode),
   Step.emit (Event.delayUs 10000),
   Step.write (Event.raw 0xF0 [0xC3]),
   Step.write (Event.raw 0xF0 [0x96]),
   Step.write (Event.command (DcsCommand.setScrollArea (SetScrollArea.fromOptions options))),
   Step.write (Event.command (DcsCommand.setAddressMode (SetAddressMode.fromOptions options))),
   Step.write (Event.command (DcsCommand.setInvertMode options.invertColors)),
   Step.write (Event.command (DcsCommand.setPixelFormat BitsPerPixel.fromRgb565)),
   Step.emit (Event.delayUs 10000),
   Step.write (Event.raw 0xB4 [0x01]),
   Step.write (Event.raw 0xB7 [0xC6]),
   Step.write (Event.raw 0xC1 [0x15]),
   Step.write (Event.raw 0xC2 [0xAF]),
   Step.write (Event.raw 0xC5 [0x22]),
   Step.write (Event.raw 0xC6 [0x00]),
   Step.write (Event.raw 0xE8 [0x40, 0x8A, 0x00, 0x00, 0x29, 0x19, 0xA5, 0x33]),
   Step.write (Event.raw 0xE0
     [0xF0, 0x04, 0x08, 0x09, 0x08, 0x15, 0x2F, 0x42, 0x46, 0x28, 0x15, 0x16, 0x29, 0x2D]),
   Step.write (Event.raw 0xE0
     [0xF0, 0x04, 0x09, 0x09, 0x08, 0x15, 0x2E, 0x46, 0x46, 0x28, 0x15, 0x15, 0x29, 0x2D]),
   Step.write (Event.command DcsCommand.enterNormalMode),
   Step.emit (Event.delayUs 10000),
   Step.write (Event.raw 0x53 [0x24]),
   Step.write (Event.raw 0xF0 [0x3C]),
   Step.write (Event.raw 0xF0 [0x69]),
   Step.write (Event.command DcsCommand.setDisplayOn),
   Step.emit (Event.delayUs 120000)]

/-- ST7796::init: runs the init step sequence against the (possibly
faulting) bus; on success it returns the address-mode value derived from
the options. hasRst is true when a reset pin is supplied. Returns the
result together with the trace of events actually performed. -/
def ST7796.init (failAt : Option Nat) (options : ModelOptions) (hasRst : Bool) :
    Except InitError Nat × List Event :=
  let r := runSteps failAt (ST7796.initSteps options hasRst) ⟨0, []⟩
  (if r.2 then Except.ok (SetAddressMode.fromOptions options)
   else Except.error InitError.displayError,
   r.1.trace)

/-- Number of bus writes in ST7796::init: 22 without a reset pin (soft reset
is a bus write), 21 with one (hard reset is pin-only). -/
def ST7796.initWriteTotal (hasRst : Bool) : Nat :=
  if hasRst then 21 else 22

/-- An Rgb565 color: red and blue 5 bits, green 6 bits. -/
structure Rgb565 where
  r : Nat
  g : Nat
  b : Nat
  deriving DecidableEq

/-- Rgb565::into_storage: the packed 16-bit raw value r:g:b = 5:6:5. -/
def Rgb565.into_storage (c : Rgb565) : Nat :=
  (c.r % 32) * 2048 + (c.g % 64) * 32 + (c.b % 32)

/-- Big-endian 16-bit wire encoding of a u16 value (DataFormat::U16BEIter). -/
def u16be (v : Nat) : List Nat :=
  [v / 256 % 256, v % 256]

/-- The byte stream of a pixel sequence: each color converted to its 16-bit
storage value and sent big-endian, in order, as the iterator is consumed. -/
def encodePixels : List Rgb565 → List Nat
  | [] => []
  | c :: rest => u16be (Rgb565.into_storage c) ++ encodePixels rest

/-- ST7796::write_pixels: issues WriteMemoryStart, then sends the whole
encoded pixel stream as a single data-phase transfer. Returns the result
together with the trace of events actually performed. -/
def ST7796.write_pixels (failAt : Option Nat) (colors : List Rgb565) :
    Except Error Unit × List Event :=
  let r := runSteps failAt
    [Step.write (Event.command DcsCommand.writeMemoryStart),
     Step.write (Event.data (encodePixels colors))] ⟨0, []⟩
  (if r.2 then Except.ok () else Except.error Error.displayError, r.1.trace)

/-- ST7796::default_options: native sizes 320x480 for both display and
framebuffer. -/
def ST7796.default_options : ModelOptions :=
  ModelOptions.with_sizes (320, 480) (320, 480)

/-- Modelled from the spec: a model type exposes its default options; stands
in for the Model trait's default_options for builder construction. -/
class DisplayModel (M : Type) where
  modelDefaultOptions : ModelOptions

instance : DisplayModel ST7796 := ⟨ST7796.default_options⟩

/-- Modelled from the spec: the builder binds a bus interface and a chosen
model together with the model's default options; building performs no bus
I/O (no Event is produced). -/
structure Builder (DI M : Type) where
  di : DI
  model : M
  options : ModelOptions

/-- Modelled from the spec: Builder::with_model binds the interface and the
model and pre-selects the model's default options. -/
def Builder.with_model {DI M : Type} [DisplayModel M] (di : DI) (model : M) :
    Builder DI M :=
  ⟨di, model, @DisplayModel.modelDefaultOptions M _⟩

/-- Builder::st7796: the per-model convenience constructor from the source;
it simply delegates to with_model with the ST7796 marker. -/
def Builder.st7796 {DI : Type} (di : DI) : Builder DI ST7796 :=
  Builder.with_model di ST7796.mk

/-- An event that is a reset action: a reset-pin assertion (start of a hard
reset) or the soft-reset command. -/
def isResetAction : Event → Bool
  | Event.resetAssert => true
  | Event.command DcsCommand.softReset => true
  | _ => false

/-- An event that is a bus write: a command, a raw register write, or a
data-phase transfer. -/
def isBusWrite : Event → Bool
  | Event.command _ => true
  | Event.raw _ _ => true
  | Event.data _ => true
  | _ => false

/-- An event that is the scroll-area command. -/
def isScrollAreaCmd : Event → Bool
  | Event.command (DcsCommand.setScrollArea _) => true
  | _ => false

/-- The portion of an event list strictly before its i-th bus write (0
indexed): what a faulting bus lets through when it rejects write i. -/
def takeBeforeWrite (i : Nat) : List Event → List Event
  | [] => []
  | e :: rest =>
      if isBusWrite e then
        match i with
        | 0 => []
        | j + 1 => e :: takeBeforeWrite j rest
      else
        e :: takeBeforeWrite i rest

theorem runSteps_none (steps : List Step) : ∀ s : BusState,
    runSteps none steps s =
      (⟨s.writes + writeCount steps, s.trace ++ eventsOf steps⟩, true) := by
  induction steps with
  | nil => intro s; simp [runSteps, eventsOf, writeCount]
  | cons st rest ih =>
      intro s
      cases st with
      | write e =>
          simp only [runSteps, if_neg (by simp : ¬(none : Option Nat) = some s.writes), ih]
          simp [eventsOf, writeCount]
          omega
      | emit e =>
          simp only [runSteps, ih]
          simp [eventsOf, writeCount]

theorem init_none_eq (options : ModelOptions) (hasRst : Bool) :
    ST7796.init none options hasRst =
      (Except.ok (SetAddressMode.fromOptions options),
       eventsOf (ST7796.initSteps options hasRst)) := by
  simp [ST7796.init, runSteps_none]

theorem runSteps_true_trace (failAt : Option Nat) (steps : List Step) :
    ∀ s : BusState, (runSteps failAt steps s).2 = true →
      (runSteps failAt steps s).1.trace = s.trace ++ eventsOf steps := by
  induction steps with
  | nil => intro s _; simp [runSteps, eventsOf]
  | cons st rest ih =>
      intro s h
      cases st with
      | write e =>
          by_cases hf : failAt = some s.writes
          · simp [runSteps, hf] at h
          · simp only [runSteps, if_neg hf] at h ⊢
            rw [ih ⟨s.writes + 1, s.trace ++ [e]⟩ h]
            simp [eventsOf]
      | emit e =>
          simp only [runSteps] at h ⊢
          rw [ih ⟨s.writes, s.trace ++ [e]⟩ h]
          simp [eventsOf]

/-- Well-formedness of a step list: write steps carry bus-write events and
emit steps carry non-bus events, so that bus-write positions in the event
list coincide with write steps. -/
def stepsWf : List Step → Bool
  | [] => true
  | Step.write e :: rest => isBusWrite e && stepsWf rest
  | Step.emit e :: rest => !isBusWrite e && stepsWf rest

theorem runSteps_some_fail (steps : List Step) :
    ∀ (s : BusState) (i : Nat), stepsWf steps = true →
      s.writes ≤ i → i < s.writes + writeCount steps →
      runSteps (some i) steps s =
        (⟨i, s.trace ++ takeBeforeWrite (i - s.writes) (eventsOf steps)⟩, false) := by
  induction steps with
  | nil =>
      intro s i _ h1 h2
      simp [writeCount] at h2
      exact ((by omega : False).elim)
  | cons st rest ih =>
      intro s i hwf h1 h2
      cases st with
      | write e =>
          simp only [stepsWf, Bool.and_eq_true] at hwf
          by_cases hi : i = s.writes
          · subst hi
            simp only [runSteps, if_pos rfl]
            simp [eventsOf, takeBeforeWrite, hwf.1]
          · have hne : ¬((some i : Option Nat) = some s.writes) := by
              simp
              omega
            simp only [runSteps, if_neg hne]
            simp only [writeCount] at h2
            rw [ih ⟨s.writes + 1, s.trace ++ [e]⟩ i hwf.2
              (by show s.writes + 1 ≤ i; omega)
              (by show i < s.writes + 1 + writeCount rest; omega)]
            obtain ⟨k, hk⟩ : ∃ k, i - s.writes = k + 1 := ⟨i - s.writes - 1, by omega⟩
            have hk2 : i - (s.writes + 1) = k := by omega
            simp [eventsOf, takeBeforeWrite, hwf.1, hk, hk2]
      | emit e =>
          simp only [stepsWf, Bool.and_eq_true, Bool.not_eq_true'] at hwf
          simp only [runSteps]
          simp only [writeCount] at h2
          rw [ih ⟨s.writes, s.trace ++ [e]⟩ i hwf.2 h1
            (by show i < s.writes + writeCount rest; omega)]
          simp [eventsOf, takeBeforeWrite, hwf.1]

theorem initSteps_wf (options : ModelOptions) (hasRst : Bool) :
    stepsWf (ST7796.initSteps options hasRst) = true := by
  cases hasRst <;> rfl

theorem initSteps_writeCount (options : ModelOptions) (hasRst : Bool) :
    writeCount (ST7796.initSteps options hasRst) = ST7796.initWriteTotal hasRst := by
  cases hasRst <;> rfl

theorem madctl_mem_events (options : ModelOptions) (hasRst : Bool) :
    Event.command (DcsCommand.setAddressMode (SetAddressMode.fromOptions options)) ∈
      eventsOf (ST7796.initSteps options hasRst) := by
  cases hasRst <;>
    simp [ST7796.initSteps, ST7796.hard_reset_steps, eventsOf]

theorem encodePixels_length (colors : List Rgb565) :
    (encodePixels colors).length = 2 * colors.length := by
  induction colors with
  | nil => rfl
  | cons c rest ih =>
      simp [encodePixels, u16be, ih]
      omega

/-- C1: for every reset-pin configuration (and any options), a fault-free
init performs exactly one reset action: the hard-reset pin assertion when a
reset pin is supplied, the soft-reset command otherwise — never both, never
neither. -/
theorem init_exactly_one_reset (options : ModelOptions) (hasRst : Bool) :
    (ST7796.init none options hasRst).2.filter isResetAction =
      (if hasRst then [Event.resetAssert]
       else [Event.command DcsCommand.softReset]) := by
  rw [init_none_eq]
  cases hasRst <;> rfl

/-- C2: with no reset pin and the default 320x480 display and framebuffer
sizes, init succeeds and emits exactly this sequence: soft-reset, 150 ms
settle, exit-sleep, 10 ms, extension-unlock (F0 C3 / F0 96),
scroll-area with zero offset, address-mode, invert-mode,
pixel-format (16 bpp), 10 ms, tuning registers, gamma tables, normal-mode,
10 ms, control and extension-lock writes, display-on, 120 ms. -/
theorem init_default_sequence :
    ST7796.init none ST7796.default_options false =
      (Except.ok 0,
       [Event.command DcsCommand.softReset,
        Event.delayUs 150000,
        Event.command DcsCommand.exitSleepMode,
        Event.delayUs 10000,
        Event.raw 0xF0 [0xC3],
        Event.raw 0xF0 [0x96],
        Event.command (DcsCommand.setScrollArea 0),
        Event.command (DcsCommand.setAddressMode 0),
        Event.command (DcsCommand.setInvertMode false),
        Event.command (DcsCommand.setPixelFormat 16),
        Event.delayUs 10000,
        Event.raw 0xB4 [0x01],
        Event.raw 0xB7 [0xC6],
        Event.raw 0xC1 [0x15],
        Event.raw 0xC2 [0xAF],
        Event.raw 0xC5 [0x22],
        Event.raw 0xC6 [0x00],
        Event.raw 0xE8 [0x40, 0x8A, 0x00, 0x00, 0x29, 0x19, 0xA5, 0x33],
        Event.raw 0xE0
          [0xF0, 0x04, 0x08, 0x09, 0x08, 0x15, 0x2F, 0x42, 0x46, 0x28, 0x15, 0x16, 0x29, 0x2D],
        Event.raw 0xE0
          [0xF0, 0x04, 0x09, 0x09, 0x08, 0x15, 0x2E, 0x46, 0x46, 0x28, 0x15, 0x15, 0x29, 0x2D],
        Event.command DcsCommand.enterNormalMode,
        Event.delayUs 10000,
        Event.raw 0x53 [0x24],
        Event.raw 0xF0 [0x3C],
        Event.raw 0xF0 [0x69],
        Event.command DcsCommand.setDisplayOn,
        Event.delayUs 120000]) := by
  rw [init_none_eq]
  rfl

/-- C4: for every finite color sequence, a fault-free write_pixels succeeds
and issues the memory-write-start command followed by exactly one data-phase
transfer holding the big-endian 16-bit encodings of the colors in order;
the transfer carries 2 N bytes (zero bytes for the empty sequence). -/
theorem write_pixels_single_data_phase (colors : List Rgb565) :
    ST7796.write_pixels none colors =
      (Except.ok (),
       [Event.command DcsCommand.writeMemoryStart,
        Event.data (encodePixels colors)]) ∧
    (encodePixels colors).length = 2 * colors.length := by
  exact ⟨rfl, encodePixels_length colors⟩

/-- C6: in every fault-free init run, the events up to the first command
after the reset action are exactly the reset action followed by the 150 ms
settle delay (at least 100 ms), and the trace ends with the display-on
command followed by the final 120 ms settle delay. -/
theorem init_settle_delays (options : ModelOptions) (hasRst : Bool) :
    (ST7796.init none options hasRst).2.take (if hasRst then 4 else 2) =
      (if hasRst then
        [Event.resetAssert, Event.delayUs 10, Event.resetDeassert,
         Event.delayUs 150000]
       else [Event.command DcsCommand.softReset, Event.delayUs 150000]) ∧
    (ST7796.init none options hasRst).2.getLast? =
      some (Event.delayUs 120000) ∧
    (ST7796.init none options hasRst).2.dropLast.getLast? =
      some (Event.command DcsCommand.setDisplayOn) ∧
    100000 ≤ 150000 := by
  rw [init_none_eq]
  cases hasRst <;> exact ⟨rfl, rfl, rfl, by omega⟩

/-- C8: default_options is a constant (hence pure) and returns 320x480 for
both the display and the framebuffer, so the framebuffer dominates the
display size in both axes. -/
theorem default_options_invariant :
    ST7796.default_options = ModelOptions.with_sizes (320, 480) (320, 480) ∧
    ST7796.default_options.displaySize = (320, 480) ∧
    ST7796.default_options.framebufferSize = (320, 480) ∧
    ST7796.default_options.displaySize.1 ≤ ST7796.default_options.framebufferSize.1 ∧
    ST7796.default_options.displaySize.2 ≤ ST7796.default_options.framebufferSize.2 := by
  exact ⟨rfl, rfl, rfl, by decide, by decide⟩

/-- C9: Builder::st7796 equals Builder::with_model applied to the ST7796
marker: it pre-selects the ST7796 variant and its default options and adds
nothing else; both are pure constructors producing no bus events. -/
theorem builder_st7796_equiv (DI : Type) (di : DI) :
    Builder.st7796 di = Builder.with_model di ST7796.mk ∧
    (Builder.st7796 di).di = di ∧
    (Builder.st7796 di).model = ST7796.mk ∧
    (Builder.st7796 di).options = ST7796.default_options := by
  exact ⟨rfl, rfl, rfl, rfl⟩

/-- C3: if the bus rejects the i-th write of init (for any position i in the
command sequence, any options, any reset configuration), init returns the
bring-up error and its trace is exactly the fault-free trace truncated
strictly before that write: no further command and no further delay is
performed after the failing write. -/
theorem init_fail_stops (options : ModelOptions) (hasRst : Bool) (i : Nat)
    (h : i < ST7796.initWriteTotal hasRst) :
    ST7796.init (some i) options hasRst =
      (Except.error InitError.displayError,
       takeBeforeWrite i (ST7796.init none options hasRst).2) := by
  have hw := initSteps_writeCount options hasRst
  have hrun := runSteps_some_fail (ST7796.initSteps options hasRst) ⟨0, []⟩ i
    (initSteps_wf options hasRst) (Nat.zero_le i) (by omega)
  rw [init_none_eq]
  simp [ST7796.init, hrun]

/-- Witness for C3: with the default options, no reset pin, and the bus
failing at write 3, init returns the error with the truncated trace. -/
theorem init_fail_stops_witness :
    3 < ST7796.initWriteTotal false ∧
    ST7796.init (some 3) ST7796.default_options false =
      (Except.error InitError.displayError,
       takeBeforeWrite 3 (ST7796.init none ST7796.default_options false).2) :=
  ⟨by decide, init_fail_stops ST7796.default_options false 3 (by decide)⟩

/-- C5: whenever init returns successfully (any fault pattern, options and
reset configuration), the returned address-mode value is exactly the one
derived deterministically from the options' orientation and inversion
flags, and the address-mode command carrying that same value was issued on
the bus. -/
theorem init_returns_derived_madctl (failAt : Option Nat)
    (options : ModelOptions) (hasRst : Bool) (a : Nat)
    (h : (ST7796.init failAt options hasRst).1 = Except.ok a) :
    a = SetAddressMode.fromOptions options ∧
    Event.command (DcsCommand.setAddressMode a) ∈
      (ST7796.init failAt options hasRst).2 := by
  by_cases hb : (runSteps failAt (ST7796.initSteps options hasRst) ⟨0, []⟩).2 = true
  · have htr := runSteps_true_trace failAt (ST7796.initSteps options hasRst) ⟨0, []⟩ hb
    simp only [ST7796.init, hb, if_true] at h ⊢
    have ha : a = SetAddressMode.fromOptions options := by
      simpa using h.symm
    subst ha
    exact ⟨rfl, by rw [htr]; simpa using madctl_mem_events options hasRst⟩
  · simp only [ST7796.init, hb, if_false] at h
    simp at h

/-- Witness for C5: with no faults, the default options and no reset pin,
init returns address mode 0, which is the derived value and appears in the
trace. -/
theorem init_returns_derived_madctl_witness :
    (0 : Nat) = SetAddressMode.fromOptions ST7796.default_options ∧
    Event.command (DcsCommand.setAddressMode 0) ∈
      (ST7796.init none ST7796.default_options false).2 :=
  init_returns_derived_madctl none ST7796.default_options false 0
    (by rw [init_none_eq]; rfl)

/-- C7: for any options whose framebuffer dominates the display size in both
axes (and any reset configuration), init issues exactly one scroll-area
command, its offset is the framebuffer-minus-display size difference, and
that offset is non-negative. -/
theorem init_scroll_offset (options : ModelOptions) (hasRst : Bool)
    (h1 : options.displaySize.1 ≤ options.framebufferSize.1)
    (h2 : options.displaySize.2 ≤ options.framebufferSize.2) :
    (ST7796.init none options hasRst).2.filter isScrollAreaCmd =
      [Event.command (DcsCommand.setScrollArea
        ((options.framebufferSize.2 : Int) - (options.displaySize.2 : Int)))] ∧
    0 ≤ (options.framebufferSize.2 : Int) - (options.displaySize.2 : Int) := by
  constructor
  · rw [init_none_eq]
    cases hasRst <;> rfl
  · omega

/-- Witness for C7: the default options satisfy the size hypotheses and
yield a zero, non-negative scroll offset. -/
theorem init_scroll_offset_witness :
    (ST7796.init none ST7796.default_options false).2.filter isScrollAreaCmd =
      [Event.command (DcsCommand.setScrollArea
        ((ST7796.default_options.framebufferSize.2 : Int) -
          (ST7796.default_options.displaySize.2 : Int)))] ∧
    0 ≤ (ST7796.default_options.framebufferSize.2 : Int) -
          (ST7796.default_options.displaySize.2 : Int) :=
  init_scroll_offset ST7796.default_options false (by decide) (by decide)

/-- C10: if the bus rejects the memory-write-start command (write attempt 0),
write_pixels returns the error with an empty trace: no data-phase transfer
is issued and no pixel byte reaches the bus. -/
theorem write_pixels_cmd_fail (colors : List Rgb565) :
    ST7796.write_pixels (some 0) colors =
      (Except.error Error.displayError, []) := by
  rfl

end Mipidsi
